import Mathlib

/-!
Shallow embedding of the ilive-tracker core (scraper.py and main.py) and
proofs about its record extraction, page parsing and snapshot diffing.

Strings are modelled as `List Char`.  Python dicts are modelled as
association lists in insertion order (Python dicts preserve insertion
order and have unique keys).  Python truthiness of a string or dict is
modelled as non-emptiness of the corresponding list.
-/

set_option maxRecDepth 4096

abbrev Str := List Char

/-- Characters matched by Python's `\s` regex class and stripped by
`str.strip()` (ASCII whitespace; the pages handled here are ASCII/Latin). -/
def isSpaceChar (c : Char) : Bool :=
  c = ' ' || c = '\t' || c = '\n' || c = '\r' || c = '\x0b' || c = '\x0c'

/-- ASCII lowercasing, as applied by `str.lower()` to class attribute text. -/
def pyLower (c : Char) : Char :=
  if 'A' ≤ c && c ≤ 'Z' then Char.ofNat (c.toNat + 32) else c

def lowerStr (s : Str) : Str := s.map pyLower

/-- Embedding of `" ".join(classes)`. -/
def joinSpace : List Str → Str
  | [] => []
  | [t] => t
  | t :: u :: ts => t ++ ' ' :: joinSpace (u :: ts)

/-- Decidable check that `n` occurs at the start of `h` (list version of
Python's `str.startswith`). -/
def isPre : Str → Str → Bool
  | [], _ => true
  | _ :: _, [] => false
  | a :: as, b :: bs => if a = b then isPre as bs else false

/-- Decidable substring containment: Python's `needle in haystack`. -/
def isSubstr : Str → Str → Bool
  | n, [] => isPre n []
  | n, c :: t => isPre n (c :: t) || isSubstr n t

/-- First-match association-list lookup, the model of `dict.get(k)` /
`dict[k]` presence (keys are unique in every dict the code builds). -/
def lookupA {α : Type} : List (Str × α) → Str → Option α
  | [], _ => none
  | (k', v) :: rest, k => if k' = k then some v else lookupA rest k

/-- Model of `dict.get(k, "")`. -/
def dictGetD (d : List (Str × Str)) (k : Str) : Str := (lookupA d k).getD []

/-- Model of Python dict assignment `d[k] = v`: replace the value in place
if the key exists (keeping its position), else append. -/
def dictAssign : List (Str × Str) → Str → Str → List (Str × Str)
  | [], k, v => [(k, v)]
  | (k', v') :: rest, k, v =>
      if k' = k then (k', v) :: rest else (k', v') :: dictAssign rest k v

def digitsToNat (ds : Str) : Nat := ds.foldl (fun n c => 10 * n + (c.toNat - 48)) 0

/-- Decimal digits of a natural number (fuelled; `natToChars` supplies
enough fuel). -/
def natToCharsAux : Nat → Nat → Str
  | 0, _ => []
  | fuel + 1, n =>
      if n < 10 then [Nat.digitChar n]
      else natToCharsAux fuel (n / 10) ++ [Nat.digitChar (n % 10)]

def natToChars (n : Nat) : Str := natToCharsAux (n + 1) n

-- ---------------------------------------------------------------------
-- scraper.py constants (lines 13-16)
-- ---------------------------------------------------------------------

def STATUS_FREE : Str := "free".toList
def STATUS_RESERVED : Str := "reserved".toList
def STATUS_OCCUPIED : Str := "occupied".toList
def STATUS_UNKNOWN : Str := "unknown".toList

-- ---------------------------------------------------------------------
-- html.unescape model
-- ---------------------------------------------------------------------

/-- Named character references recognised by the model of Python's
`html.unescape` (a representative subset of the html5 table, restricted
to semicolon-terminated references; the markup this scraper handles uses
only such references). -/
def entityTable : List (Str × Str) :=
  [ ("amp".toList, "&".toList),
    ("lt".toList, "<".toList),
    ("gt".toList, ">".toList),
    ("quot".toList, "\"".toList),
    ("apos".toList, "'".toList),
    ("nbsp".toList, "\xA0".toList),
    ("euro".toList, "€".toList),
    ("szlig".toList, "ß".toList),
    ("auml".toList, "ä".toList),
    ("ouml".toList, "ö".toList),
    ("uuml".toList, "ü".toList) ]

/-- Attempt to read one character reference at the point just after a `&`;
returns the replacement text and the remaining input on success. -/
def matchEntity (s : Str) : Option (Str × Str) :=
  match s with
  | '#' :: rest =>
      let ds := rest.takeWhile Char.isDigit
      let rest2 := rest.dropWhile Char.isDigit
      match ds, rest2 with
      | [], _ => none
      | _ :: _, ';' :: rem => some ([Char.ofNat (digitsToNat ds)], rem)
      | _ :: _, _ => none
  | _ =>
      let nm := s.takeWhile (fun c => c.isAlpha || c.isDigit)
      let rest2 := s.dropWhile (fun c => c.isAlpha || c.isDigit)
      match rest2 with
      | ';' :: rem =>
          match lookupA entityTable nm with
          | some rep => some (rep, rem)
          | none => none
      | _ => none

/-- Fuelled worker for `unescape`; one unit of fuel per consumed input
character is enough. -/
def unescapeAux : Nat → Str → Str
  | 0, s => s
  | _ + 1, [] => []
  | fuel + 1, c :: rest =>
      if c = '&' then
        match matchEntity rest with
        | some (rep, rem) => rep ++ unescapeAux fuel rem
        | none => c :: unescapeAux fuel rest
      else c :: unescapeAux fuel rest

/-- Model of `html.unescape`: replace each character reference, scanning
left to right, never rescanning replacement text. -/
def unescape (s : Str) : Str := unescapeAux s.length s

/-- True when the scanner of `unescape` would find at least one character
reference to replace; `hasEntity s = false` is the model of "`s` is fully
decoded". -/
def hasEntity : Str → Bool
  | [] => false
  | c :: rest => (decide (c = '&') && (matchEntity rest).isSome) || hasEntity rest

-- ---------------------------------------------------------------------
-- scraper.py status detection (lines 34-58)
-- ---------------------------------------------------------------------

/-- Embedding of `_detect_status` (scraper.py lines 34-43). -/
def _detect_status (classes : List Str) : Str :=
  let class_str := lowerStr (joinSpace classes)
  if isSubstr "free".toList class_str then STATUS_FREE
  else if isSubstr "reserved".toList class_str then STATUS_RESERVED
  else if isSubstr "occupied".toList class_str then STATUS_OCCUPIED
  else STATUS_UNKNOWN

/-- Embedding of `_detect_status_from_data_text` (scraper.py lines 46-58). -/
def _detect_status_from_data_text (data_text : Str) : Str :=
  if data_text = [] then STATUS_UNKNOWN
  else
    let text := unescape (unescape data_text)
    if isSubstr "unit_free".toList text then STATUS_FREE
    else if isSubstr "unit_reserved".toList text then STATUS_RESERVED
    else if isSubstr "unit_occupied".toList text then STATUS_OCCUPIED
    else STATUS_UNKNOWN

-- ---------------------------------------------------------------------
-- scraper.py detail parsing (lines 61-84)
-- ---------------------------------------------------------------------

/-- Attempt to match the regex `<br\s*/?>` at the start of `s`; on success
return the input after the matched line-break tag.  The regex is
deterministic here: `\s*` is forced maximal because neither `/` nor `>`
is whitespace. -/
def matchBr (s : Str) : Option Str :=
  match s with
  | '<' :: 'b' :: 'r' :: rest =>
      let rest2 := rest.dropWhile isSpaceChar
      match rest2 with
      | '>' :: rem => some rem
      | '/' :: '>' :: rem => some rem
      | _ => none
  | _ => none

/-- Fuelled worker for `splitBr`: leftmost, non-overlapping splitting at
`<br\s*/?>` matches, as `re.split` does.  `acc` is the current segment,
reversed. -/
def splitBrAux : Nat → Str → Str → List Str
  | 0, acc, s => [acc.reverse ++ s]
  | _ + 1, acc, [] => [acc.reverse]
  | fuel + 1, acc, c :: rest =>
      match matchBr (c :: rest) with
      | some rem => acc.reverse :: splitBrAux fuel [] rem
      | none => splitBrAux fuel (c :: acc) rest

/-- Embedding of `re.split(r"<br\s*/?>", text)`. -/
def splitBr (s : Str) : List Str := splitBrAux (s.length + 1) [] s

/-- Skip up to and including the first `'>'`; `none` if there is none.
Every skipped character is a non-`'>'`, matching `[^>]+`. -/
def afterGt : Str → Option Str
  | [] => none
  | '>' :: rest => some rest
  | _ :: rest => afterGt rest

/-- Attempt to match `[^>]+>` right after an opening `'<'`: at least one
non-`'>'` character, then the closing `'>'`.  Returns the remaining
input after the tag. -/
def tagEnd : Str → Option Str
  | [] => none
  | c :: rest => if c = '>' then none else afterGt rest

/-- Fuelled worker for `stripTags`. -/
def stripTagsAux : Nat → Str → Str
  | 0, s => s
  | _ + 1, [] => []
  | fuel + 1, c :: rest =>
      if c = '<' then
        match tagEnd rest with
        | some rem => stripTagsAux fuel rem
        | none => c :: stripTagsAux fuel rest
      else c :: stripTagsAux fuel rest

/-- Embedding of `re.sub(r"<[^>]+>", "", part)`: delete every markup tag,
scanning left to right. -/
def stripTags (s : Str) : Str := stripTagsAux s.length s

/-- Embedding of `str.strip()`: drop whitespace from both ends. -/
def stripStr (s : Str) : Str :=
  ((s.dropWhile isSpaceChar).reverse.dropWhile isSpaceChar).reverse

/-- Process one `<br>`-separated segment of the detail blob: strip tags and
whitespace, skip empty segments, and for segments containing a colon split
at the first colon into a label/value pair (scraper.py lines 76-82). -/
def procPart (details : List (Str × Str)) (part : Str) : List (Str × Str) :=
  let clean := stripStr (stripTags part)
  if clean = [] then details
  else if isSubstr ":".toList clean then
    let key := clean.takeWhile (fun c => c ≠ ':')
    let val := (clean.dropWhile (fun c => c ≠ ':')).drop 1
    dictAssign details (stripStr key) (stripStr val)
  else details

/-- Embedding of `_parse_data_text` (scraper.py lines 61-84). -/
def _parse_data_text (data_text : Str) : List (Str × Str) :=
  if data_text = [] then []
  else
    let text := unescape (unescape data_text)
    (splitBr text).foldl procPart []

-- ---------------------------------------------------------------------
-- scraper.py record building and page parsing (lines 87-145)
-- ---------------------------------------------------------------------

/-- Extract the value of the first `(\d+)` regex match as a number:
the first contiguous run of decimal digits, `none` when there is no
digit. -/
def firstNumber : Str → Option Nat
  | [] => none
  | c :: rest =>
      if c.isDigit then some (digitsToNat (c :: rest.takeWhile Char.isDigit))
      else firstNumber rest

/-- Monetary value of a detail string (scraper.py lines 122-131): `0` for
the empty string, else the first digit run, else `0`. -/
def moneyValue (s : Str) : Nat :=
  if s = [] then 0
  else
    match firstNumber s with
    | some n => n
    | none => 0

/-- Format `f"\x7bn\x7d €"` when `n` is truthy, else the empty string
(scraper.py lines 140-142). -/
def fmtEuro (n : Nat) : Str := if n = 0 then [] else natToChars n ++ " €".toList

/-- One `<a class="apartment" href="#detail">` element as BeautifulSoup
hands it to the loop body of `parse_apartments`: `text` is
`link.get_text(strip=True)`, the others are the raw attribute values. -/
structure Listing where
  text : Str
  classes : List Str
  title : Str
  data_text : Str
deriving DecidableEq, Repr

/-- Does the regex `\s*Nr\.\s*\S+\s*$` match the whole of `t`?  The match
is deterministic: each `\s*` is forced maximal and `\S+` cannot cross
whitespace. -/
def nrSuffixAt (t : Str) : Bool :=
  let t1 := t.dropWhile isSpaceChar
  if isPre "Nr.".toList t1 then
    let t3 := (t1.drop 3).dropWhile isSpaceChar
    let tok := t3.takeWhile (fun c => !(isSpaceChar c))
    let rest := t3.dropWhile (fun c => !(isSpaceChar c))
    decide (tok ≠ []) && rest.all isSpaceChar
  else false

/-- Embedding of `re.sub(r"\s*Nr\.\s*\S+\s*$", "", title)`: delete the
suffix starting at the leftmost position where the anchored pattern
matches, if any. -/
def nrSub : Str → Str
  | [] => []
  | c :: rest => if nrSuffixAt (c :: rest) then [] else c :: nrSub rest

/-- Status resolution of one listing (scraper.py lines 112-115): CSS
classes first, falling back to the data-text content when they yield
`unknown`. -/
def resolve_status (classes : List Str) (data_text : Str) : Str :=
  let status := _detect_status classes
  if status = STATUS_UNKNOWN then _detect_status_from_data_text data_text
  else status

abbrev Info := List (Str × Str)
abbrev Snapshot := List (Str × Info)

/-- The record dict built for one listing (scraper.py lines 105-143). -/
def buildInfo (link : Listing) : Info :=
  let apt_number := link.text
  let title := stripStr link.title
  let apt_type := stripStr (nrSub title)
  let status := resolve_status link.classes link.data_text
  let details := _parse_data_text link.data_text
  let kaltmiete := moneyValue (dictGetD details "Miethöhe".toList)
  let nebenkosten := moneyValue (dictGetD details "Nebenkosten".toList)
  let total := kaltmiete + nebenkosten
  [ ("name".toList, "Apartment ".toList ++ apt_number),
    ("type".toList, if apt_type = [] then "Unknown".toList else apt_type),
    ("status".toList, status),
    ("size".toList, dictGetD details "Größe".toList),
    ("kaltmiete".toList, fmtEuro kaltmiete),
    ("nebenkosten".toList, fmtEuro nebenkosten),
    ("total".toList, fmtEuro total) ]

/-- Loop of `parse_apartments` (scraper.py lines 98-143): `acc` holds the
apartments built so far; a listing is skipped when its extracted id is
empty or already seen (the seen set always equals the key set of the
dict built so far). -/
def parseAux : Snapshot → List Listing → Snapshot
  | acc, [] => acc
  | acc, link :: rest =>
      let apt_number := link.text
      if apt_number = [] then parseAux acc rest
      else if (lookupA acc apt_number).isSome then parseAux acc rest
      else parseAux (acc ++ [(apt_number, buildInfo link)]) rest

/-- Embedding of `parse_apartments` applied to the listing elements found
in the page, in document order. -/
def parse_apartments (links : List Listing) : Snapshot := parseAux [] links

-- ---------------------------------------------------------------------
-- main.py snapshot differ (lines 65-88)
-- ---------------------------------------------------------------------

def statusOf (info : Info) : Option Str := lookupA info "status".toList

/-- The `was_unavailable` flag of `find_newly_available` (main.py lines
75-78): `True` by default; when the id maps to a truthy (non-empty)
record in `previous`, it becomes `prev_info.get("status") in
(STATUS_OCCUPIED, STATUS_RESERVED)` (a missing key makes that `False`). -/
def wasUnavailable (previous : Snapshot) (apt_id : Str) : Bool :=
  match lookupA previous apt_id with
  | none => true
  | some prev_info =>
      if prev_info = [] then true
      else
        match statusOf prev_info with
        | some s => decide (s = STATUS_OCCUPIED) || decide (s = STATUS_RESERVED)
        | none => false

/-- The `is_available` flag of `find_newly_available` (main.py lines
80-83).  Note the code consults the key `"rent"`, which no record built
by `parse_apartments` carries (records carry `"kaltmiete"`,
`"nebenkosten"`, `"total"`).  `info["status"]` raises `KeyError` in
Python only when the key is missing, which never happens for records the
scraper builds; the model reads the empty string there instead. -/
def isAvailable (info : Info) : Bool :=
  let st := (statusOf info).getD []
  decide (st = STATUS_FREE) ||
    (decide (st = STATUS_UNKNOWN) && decide ((lookupA info "rent".toList).getD [] ≠ []))

/-- Embedding of `find_newly_available` (main.py lines 65-88). -/
def find_newly_available (previous : Option Snapshot) (current : Snapshot) : Snapshot :=
  match previous with
  | none => []
  | some prev => current.filter (fun kv => isAvailable kv.2 && wasUnavailable prev kv.1)

-- ---------------------------------------------------------------------
-- Helper lemmas
-- ---------------------------------------------------------------------

theorem lookupA_of_nodup {α : Type} (l : List (Str × α)) (kv : Str × α)
    (hnd : (l.map Prod.fst).Nodup) (hm : kv ∈ l) : lookupA l kv.1 = some kv.2 := by
  induction l with
  | nil => cases hm
  | cons hd tl ih =>
    rcases List.mem_cons.mp hm with h | h
    · subst h
      simp [lookupA]
    · have hne : hd.1 ≠ kv.1 := by
        intro he
        exact (List.nodup_cons.mp hnd).1 (he ▸ List.mem_map_of_mem Prod.fst h)
      simp only [lookupA, if_neg hne]
      exact ih (List.nodup_cons.mp hnd).2 h

theorem statusOf_ne_nil {info : Info} {s : Str} (h : statusOf info = some s) :
    info ≠ [] := by
  intro hn
  subst hn
  simp [statusOf, lookupA] at h

theorem isAvailable_status {info : Info} (h : isAvailable info = true) :
    ∃ s, statusOf info = some s ∧ (s = STATUS_FREE ∨ s = STATUS_UNKNOWN) := by
  unfold isAvailable at h
  cases hs : statusOf info with
  | none =>
    rw [hs] at h
    simp only [Option.getD_none] at h
    rw [decide_eq_false (by decide : ¬([] : Str) = STATUS_FREE),
        decide_eq_false (by decide : ¬([] : Str) = STATUS_UNKNOWN)] at h
    simp at h
  | some s =>
    rw [hs] at h
    simp only [Option.getD_some, Bool.or_eq_true, Bool.and_eq_true, decide_eq_true_eq] at h
    exact ⟨s, rfl, h.imp id And.left⟩

theorem fmtEuro_eq_nil_iff (n : Nat) : fmtEuro n = [] ↔ n = 0 := by
  unfold fmtEuro
  by_cases h : n = 0
  · simp [h]
  · simp [h]

/-- Record lookups into `buildInfo` reduce definitionally: the `"type"`
field. -/
theorem lookupA_buildInfo_type (L : Listing) :
    lookupA (buildInfo L) "type".toList
      = some (if stripStr (nrSub (stripStr L.title)) = [] then "Unknown".toList
              else stripStr (nrSub (stripStr L.title))) := rfl

/-- Record lookups into `buildInfo`: the `"status"` field. -/
theorem lookupA_buildInfo_status (L : Listing) :
    lookupA (buildInfo L) "status".toList
      = some (resolve_status L.classes L.data_text) := rfl

/-- Record lookups into `buildInfo`: the `"kaltmiete"` field. -/
theorem lookupA_buildInfo_kaltmiete (L : Listing) :
    lookupA (buildInfo L) "kaltmiete".toList
      = some (fmtEuro (moneyValue (dictGetD (_parse_data_text L.data_text) "Miethöhe".toList))) := rfl

/-- Record lookups into `buildInfo`: the `"nebenkosten"` field. -/
theorem lookupA_buildInfo_nebenkosten (L : Listing) :
    lookupA (buildInfo L) "nebenkosten".toList
      = some (fmtEuro (moneyValue (dictGetD (_parse_data_text L.data_text) "Nebenkosten".toList))) := rfl

/-- Record lookups into `buildInfo`: the `"total"` field. -/
theorem lookupA_buildInfo_total (L : Listing) :
    lookupA (buildInfo L) "total".toList
      = some (fmtEuro (moneyValue (dictGetD (_parse_data_text L.data_text) "Miethöhe".toList)
                       + moneyValue (dictGetD (_parse_data_text L.data_text) "Nebenkosten".toList))) := rfl

/-- Build a full seven-field record dict from plain strings, for concrete
snapshots in scenario theorems. -/
def mkInfo (nm ty st sz km nk tt : String) : Info :=
  [ ("name".toList, nm.toList), ("type".toList, ty.toList),
    ("status".toList, st.toList), ("size".toList, sz.toList),
    ("kaltmiete".toList, km.toList), ("nebenkosten".toList, nk.toList),
    ("total".toList, tt.toList) ]

def prevBinfo : Info :=
  mkInfo "Apartment B" "Komfort-Apartment" "reserved" "24.19 m²" "551 €" "167 €" "718 €"

def curBinfo : Info :=
  mkInfo "Apartment B" "Komfort-Apartment" "unknown" "24.19 m²" "551 €" "167 €" "718 €"

-- ---------------------------------------------------------------------
-- Claim theorems
-- ---------------------------------------------------------------------

/-- C3: for every current snapshot, diffing with an absent previous
snapshot (true first run) returns the empty delta. -/
theorem diff_absent_previous_empty (current : Snapshot) :
    find_newly_available none current = [] := rfl

/-- C1: in the ambiguous-priced scenario (previous has B reserved, current
has B with status unknown and non-empty kaltmiete/coldRent), the code
produces the EMPTY delta, contrary to the claim: `find_newly_available`
consults `info.get("rent")`, a key no scraper record carries, so the
unknown-with-rent branch never fires. -/
theorem ambiguous_priced_scenario_empty_delta :
    statusOf prevBinfo = some STATUS_RESERVED ∧
    statusOf curBinfo = some STATUS_UNKNOWN ∧
    lookupA curBinfo "kaltmiete".toList = some ("551 €".toList) ∧
    find_newly_available (some [("B".toList, prevBinfo)]) [("B".toList, curBinfo)] = [] := by
  decide

theorem unescapeAux_no_entity :
    ∀ (fuel : Nat) (s : Str), hasEntity s = false → unescapeAux fuel s = s := by
  intro fuel
  induction fuel with
  | zero => intro s _; rfl
  | succ n ih =>
    intro s h
    cases s with
    | nil => rfl
    | cons c rest =>
      simp only [hasEntity, Bool.or_eq_false_iff, Bool.and_eq_false_iff] at h
      by_cases hc : c = '&'
      · have hm : matchEntity rest = none := by
          rcases h.1 with h1 | h1
          · simp [hc] at h1
          · exact Option.not_isSome_iff_eq_none.mp (by simp [h1])
        simp only [unescapeAux, if_pos hc, hm]
        rw [ih rest h.2]
      · simp only [unescapeAux, if_neg hc]
        rw [ih rest h.2]

/-- C9: the entity decoding applied to the detail blob is idempotent once
fully decoded: a string in which the scanner finds no character reference
is left unchanged, hence decoding more than twice never changes text that
is already fully decoded after two passes. -/
theorem unescape_idempotent_once_decoded :
    (∀ s : Str, hasEntity s = false → unescape s = s) ∧
    (∀ s : Str, hasEntity (unescape (unescape s)) = false →
       unescape (unescape (unescape s)) = unescape (unescape s)) := by
  constructor
  · intro s h
    exact unescapeAux_no_entity s.length s h
  · intro s h
    exact unescapeAux_no_entity _ _ h

/-- C9 witness: a fully decoded string containing a bare ampersand is left
unchanged by `unescape`. -/
theorem unescape_idempotent_once_decoded_witness :
    hasEntity "Tür & Tor: 551 €".toList = false ∧
    unescape "Tür & Tor: 551 €".toList = "Tür & Tor: 551 €".toList :=
  ⟨by decide, unescape_idempotent_once_decoded.1 _ (by decide)⟩

/-- C10: when the title strips down to nothing (empty, or only a trailing
"Nr. <token>" suffix), the record's type field is the literal string
"Unknown", never empty. -/
theorem empty_title_gives_unknown_type (L : Listing)
    (h : stripStr (nrSub (stripStr L.title)) = []) :
    lookupA (buildInfo L) "type".toList = some ("Unknown".toList) := by
  rw [lookupA_buildInfo_type, if_pos h]

/-- C10 witness: a title consisting only of the unit-number suffix yields
the type "Unknown". -/
theorem empty_title_gives_unknown_type_witness :
    stripStr (nrSub (stripStr (" Nr. 0.1 ".toList))) = [] ∧
    lookupA (buildInfo ⟨"7".toList, [], " Nr. 0.1 ".toList, []⟩) "type".toList
      = some ("Unknown".toList) :=
  ⟨by decide, empty_title_gives_unknown_type ⟨"7".toList, [], " Nr. 0.1 ".toList, []⟩ (by decide)⟩

/-- Listing with both monetary labels, from the spec's monetary-parse
scenario. -/
def L718 : Listing :=
  ⟨"0.1".toList, ["apartment".toList], "Komfort-Apartment Nr. 0.1".toList,
    "Miethöhe: 551 €<br>Nebenkosten: 167 €".toList⟩

/-- Listing carrying only the cold-rent label, no utilities label. -/
def L551 : Listing :=
  ⟨"0.2".toList, ["apartment".toList], [], "Miethöhe: 551 €".toList⟩

/-- C2 counterexample: a listing whose details carry "Miethöhe" but no
"Nebenkosten" label still gets the non-empty total "551 €", not the empty
string the claim requires when both labels are not present. -/
theorem total_single_label_counterexample :
    lookupA (_parse_data_text L551.data_text) "Nebenkosten".toList = none ∧
    lookupA (buildInfo L551) "total".toList = some ("551 €".toList) ∧
    ("551 €".toList : Str) ≠ [] := by
  decide

/-- C2 (amended): the total field is always the formatted sum of the
parsed cold-rent and utilities values, each taken as 0 when its label is
absent or has no digits; the total renders as the empty string exactly
when that sum is 0.  The spec's concrete example (551 € + 167 € ⇒ 718 €)
holds. -/
theorem total_is_formatted_sum :
    (∀ L : Listing,
       lookupA (buildInfo L) "kaltmiete".toList
         = some (fmtEuro (moneyValue (dictGetD (_parse_data_text L.data_text) "Miethöhe".toList))) ∧
       lookupA (buildInfo L) "nebenkosten".toList
         = some (fmtEuro (moneyValue (dictGetD (_parse_data_text L.data_text) "Nebenkosten".toList))) ∧
       lookupA (buildInfo L) "total".toList
         = some (fmtEuro (moneyValue (dictGetD (_parse_data_text L.data_text) "Miethöhe".toList)
                          + moneyValue (dictGetD (_parse_data_text L.data_text) "Nebenkosten".toList))) ∧
       (lookupA (buildInfo L) "total".toList = some []
          ↔ moneyValue (dictGetD (_parse_data_text L.data_text) "Miethöhe".toList)
              + moneyValue (dictGetD (_parse_data_text L.data_text) "Nebenkosten".toList) = 0)) ∧
    (lookupA (buildInfo L718) "kaltmiete".toList = some ("551 €".toList) ∧
     lookupA (buildInfo L718) "nebenkosten".toList = some ("167 €".toList) ∧
     lookupA (buildInfo L718) "total".toList = some ("718 €".toList)) := by
  constructor
  · intro L
    refine ⟨lookupA_buildInfo_kaltmiete L, lookupA_buildInfo_nebenkosten L,
      lookupA_buildInfo_total L, ?_⟩
    rw [lookupA_buildInfo_total L]
    rw [Option.some_inj]
    exact fmtEuro_eq_nil_iff _
  · exact ⟨by decide, by decide, by decide⟩

theorem find_newly_available_some (prev current : Snapshot) :
    find_newly_available (some prev) current
      = current.filter (fun kv => isAvailable kv.2 && wasUnavailable prev kv.1) := rfl

theorem wasUnavailable_of_none {prev : Snapshot} {id : Str}
    (h : lookupA prev id = none) : wasUnavailable prev id = true := by
  unfold wasUnavailable
  rw [h]

theorem wasUnavailable_of_some {prev : Snapshot} {id : Str} {pinfo : Info}
    (h : lookupA prev id = some pinfo) :
    wasUnavailable prev id
      = (if pinfo = [] then true
         else
           match statusOf pinfo with
           | some s => decide (s = STATUS_OCCUPIED) || decide (s = STATUS_RESERVED)
           | none => false) := by
  unfold wasUnavailable
  rw [h]

theorem wasUnavailable_false_of_avail {prev : Snapshot} {id : Str} {pinfo : Info} {s : Str}
    (hl : lookupA prev id = some pinfo) (hs : statusOf pinfo = some s)
    (hfs : s = STATUS_FREE ∨ s = STATUS_UNKNOWN) : wasUnavailable prev id = false := by
  rw [wasUnavailable_of_some hl, if_neg (statusOf_ne_nil hs), hs]
  rcases hfs with h | h <;> subst h <;> decide

def infoC : Info :=
  mkInfo "Apartment C" "Komfort-Apartment" "free" "24.19 m²" "551 €" "167 €" "718 €"

/-- C5: an id absent from the (present) previous snapshot is treated as
previously unavailable; an id present with a status is previously
unavailable exactly when that status is occupied or reserved; and with
previous the empty (but present) snapshot and current holding C free, the
delta includes C. -/
theorem wasUnavailable_rule :
    (∀ (prev : Snapshot) (id : Str), lookupA prev id = none → wasUnavailable prev id = true) ∧
    (∀ (prev : Snapshot) (id : Str) (pinfo : Info) (s : Str),
       lookupA prev id = some pinfo → statusOf pinfo = some s →
       (wasUnavailable prev id = true ↔ (s = STATUS_OCCUPIED ∨ s = STATUS_RESERVED))) ∧
    find_newly_available (some []) [("C".toList, infoC)] = [("C".toList, infoC)] := by
  refine ⟨fun prev id h => wasUnavailable_of_none h, fun prev id pinfo s hl hs => ?_, by decide⟩
  rw [wasUnavailable_of_some hl, if_neg (statusOf_ne_nil hs), hs]
  simp

/-- C5 witness: instantiation at an absent id and at a reserved record. -/
theorem wasUnavailable_rule_witness :
    wasUnavailable [] "A".toList = true ∧
    (wasUnavailable [("B".toList, prevBinfo)] "B".toList = true ↔
       (STATUS_RESERVED = STATUS_OCCUPIED ∨ STATUS_RESERVED = STATUS_RESERVED)) :=
  ⟨wasUnavailable_rule.1 [] "A".toList rfl,
   wasUnavailable_rule.2.1 [("B".toList, prevBinfo)] "B".toList prevBinfo STATUS_RESERVED
     (by decide) (by decide)⟩

def infoA : Info := mkInfo "Apartment A" "Komfort-Apartment" "free" "" "" "" ""

def S1 : Snapshot := [("A".toList, infoA)]

/-- C4: diffing a snapshot (with the unique keys every Python dict has)
against itself yields the empty delta; more generally an id whose
previous record's status is free or unknown never contributes a delta
entry, whatever the current snapshot holds. -/
theorem diff_self_empty :
    (∀ S : Snapshot, (S.map Prod.fst).Nodup → find_newly_available (some S) S = []) ∧
    (∀ (prev cur : Snapshot) (kv : Str × Info) (pinfo : Info) (s : Str),
       lookupA prev kv.1 = some pinfo → statusOf pinfo = some s →
       (s = STATUS_FREE ∨ s = STATUS_UNKNOWN) →
       kv ∉ find_newly_available (some prev) cur) := by
  constructor
  · intro S hnd
    rw [find_newly_available_some, List.filter_eq_nil_iff]
    intro kv hkv hp
    rw [Bool.and_eq_true] at hp
    obtain ⟨hav, hwu⟩ := hp
    obtain ⟨s, hs, hfs⟩ := isAvailable_status hav
    have hl : lookupA S kv.1 = some kv.2 := lookupA_of_nodup S kv hnd hkv
    rw [wasUnavailable_false_of_avail hl hs hfs] at hwu
    cases hwu
  · intro prev cur kv pinfo s hl hs hfs hmem
    rw [find_newly_available_some] at hmem
    have hp := (List.mem_filter.mp hmem).2
    rw [Bool.and_eq_true] at hp
    have hwu := hp.2
    rw [wasUnavailable_false_of_avail hl hs hfs] at hwu
    cases hwu

/-- C4 witness: a one-entry free snapshot diffed against itself, and the
free-stays-free id producing no delta entry. -/
theorem diff_self_empty_witness :
    (S1.map Prod.fst).Nodup ∧
    find_newly_available (some S1) S1 = [] ∧
    ("A".toList, infoA) ∉ find_newly_available (some S1) S1 :=
  ⟨by decide, diff_self_empty.1 S1 (by decide),
   diff_self_empty.2 S1 S1 ("A".toList, infoA) infoA STATUS_FREE
     (by decide) (by decide) (Or.inl rfl)⟩

theorem lookupA_append_some {α : Type} {a : List (Str × α)} (b : List (Str × α))
    {k : Str} {v : α} (h : lookupA a k = some v) : lookupA (a ++ b) k = some v := by
  induction a with
  | nil => simp [lookupA] at h
  | cons hd tl ih =>
    obtain ⟨k', v'⟩ := hd
    by_cases h' : k' = k
    · simp only [lookupA, if_pos h'] at h
      simp only [List.cons_append, lookupA, if_pos h']
      exact h
    · simp only [lookupA, if_neg h'] at h
      simp only [List.cons_append, lookupA, if_neg h']
      exact ih h

theorem lookupA_append_none {α : Type} {a : List (Str × α)} (b : List (Str × α))
    {k : Str} (h : lookupA a k = none) : lookupA (a ++ b) k = lookupA b k := by
  induction a with
  | nil => rfl
  | cons hd tl ih =>
    obtain ⟨k', v'⟩ := hd
    by_cases h' : k' = k
    · simp only [lookupA, if_pos h'] at h
      cases h
    · simp only [lookupA, if_neg h'] at h
      simp only [List.cons_append, lookupA, if_neg h']
      exact ih h

theorem find?_listing_cons_neg {l : Listing} {rest : List Listing} {id : Str}
    (h : l.text ≠ id) :
    List.find? (fun x => decide (x.text = id)) (l :: rest)
      = List.find? (fun x => decide (x.text = id)) rest := by
  simp only [List.find?, decide_eq_false h]

theorem find?_listing_cons_pos {l : Listing} {rest : List Listing} {id : Str}
    (h : l.text = id) :
    List.find? (fun x => decide (x.text = id)) (l :: rest) = some l := by
  simp only [List.find?, decide_eq_true h]

theorem lookupA_eq_none_iff {α : Type} (l : List (Str × α)) (k : Str) :
    lookupA l k = none ↔ k ∉ l.map Prod.fst := by
  induction l with
  | nil => exact ⟨fun _ => List.not_mem_nil k, fun _ => rfl⟩
  | cons hd tl ih =>
    obtain ⟨k', v'⟩ := hd
    by_cases h : k' = k
    · constructor
      · intro hnone
        simp only [lookupA, if_pos h] at hnone
        exact Option.noConfusion hnone
      · intro hnot
        exact absurd (h ▸ List.mem_cons_self k' _) hnot
    · simp only [lookupA, if_neg h, List.map_cons]
      rw [ih]
      constructor
      · intro hnot hmem
        rcases List.mem_cons.mp hmem with he | hm
        · exact h he.symm
        · exact hnot hm
      · intro hnot hm
        exact hnot (List.mem_cons_of_mem _ hm)

theorem parseAux_cons_empty {acc : Snapshot} {l : Listing} {rest : List Listing}
    (h0 : l.text = []) : parseAux acc (l :: rest) = parseAux acc rest := by
  simp only [parseAux, if_pos h0]

theorem parseAux_cons_seen {acc : Snapshot} {l : Listing} {rest : List Listing}
    (h0 : ¬l.text = []) (h1 : (lookupA acc l.text).isSome) :
    parseAux acc (l :: rest) = parseAux acc rest := by
  simp only [parseAux, if_neg h0, if_pos h1]

theorem parseAux_cons_add {acc : Snapshot} {l : Listing} {rest : List Listing}
    (h0 : ¬l.text = []) (h1 : ¬(lookupA acc l.text).isSome = true) :
    parseAux acc (l :: rest) = parseAux (acc ++ [(l.text, buildInfo l)]) rest := by
  simp only [parseAux, if_neg h0, if_neg h1]

theorem parseAux_lookup_mono (ls : List Listing) (acc : Snapshot) (id : Str) (v : Info)
    (h : lookupA acc id = some v) : lookupA (parseAux acc ls) id = some v := by
  induction ls generalizing acc with
  | nil => exact h
  | cons l rest ih =>
    by_cases h0 : l.text = []
    · rw [parseAux_cons_empty h0]
      exact ih acc h
    · by_cases h1 : (lookupA acc l.text).isSome
      · rw [parseAux_cons_seen h0 h1]
        exact ih acc h
      · rw [parseAux_cons_add h0 h1]
        exact ih _ (lookupA_append_some _ h)

theorem parseAux_lookup_none (ls : List Listing) (acc : Snapshot) (id : Str)
    (h : lookupA acc id = none) :
    lookupA (parseAux acc ls) id =
      if id = [] then none
      else (ls.find? (fun l => decide (l.text = id))).map buildInfo := by
  induction ls generalizing acc with
  | nil => simp [parseAux, h]
  | cons l rest ih =>
    by_cases h0 : l.text = []
    · rw [parseAux_cons_empty h0, ih acc h]
      by_cases hid : id = []
      · simp [hid]
      · have hne : l.text ≠ id := by
          intro he
          exact hid (he ▸ h0)
        rw [if_neg hid, if_neg hid, find?_listing_cons_neg hne]
    · by_cases h1 : (lookupA acc l.text).isSome
      · have hne0 : l.text ≠ id := by
          intro he
          rw [he, h] at h1
          simp at h1
        rw [parseAux_cons_seen h0 h1, ih acc h]
        by_cases hid : id = []
        · simp [hid]
        · rw [if_neg hid, if_neg hid, find?_listing_cons_neg hne0]
      · rw [parseAux_cons_add h0 h1]
        by_cases h2 : l.text = id
        · subst h2
          have hacc' : lookupA (acc ++ [(l.text, buildInfo l)]) l.text
              = some (buildInfo l) := by
            rw [lookupA_append_none _ h]
            simp [lookupA]
          rw [parseAux_lookup_mono rest _ _ _ hacc']
          rw [if_neg h0, find?_listing_cons_pos rfl]
          rfl
        · have hacc' : lookupA (acc ++ [(l.text, buildInfo l)]) id = none := by
            rw [lookupA_append_none _ h]
            simp [lookupA, h2]
          rw [ih _ hacc']
          by_cases hid : id = []
          · simp [hid]
          · rw [if_neg hid, if_neg hid, find?_listing_cons_neg h2]

theorem parseAux_nodup (ls : List Listing) (acc : Snapshot)
    (hnd : (acc.map Prod.fst).Nodup) : ((parseAux acc ls).map Prod.fst).Nodup := by
  induction ls generalizing acc with
  | nil => exact hnd
  | cons l rest ih =>
    by_cases h0 : l.text = []
    · rw [parseAux_cons_empty h0]
      exact ih acc hnd
    · by_cases h1 : (lookupA acc l.text).isSome
      · rw [parseAux_cons_seen h0 h1]
        exact ih acc hnd
      · rw [parseAux_cons_add h0 h1]
        refine ih _ ?_
        have hnotin : l.text ∉ acc.map Prod.fst := by
          rw [← lookupA_eq_none_iff]
          exact Option.not_isSome_iff_eq_none.mp h1
        simp [List.nodup_append, hnd, hnotin]

theorem parseAux_mem (ls : List Listing) (acc : Snapshot) (kv : Str × Info)
    (h : kv ∈ parseAux acc ls) :
    kv ∈ acc ∨ ∃ l, l ∈ ls ∧ kv = (l.text, buildInfo l) := by
  induction ls generalizing acc with
  | nil => exact Or.inl h
  | cons l rest ih =>
    by_cases h0 : l.text = []
    · rw [parseAux_cons_empty h0] at h
      rcases ih acc h with h' | ⟨l', hl', he⟩
      · exact Or.inl h'
      · exact Or.inr ⟨l', List.mem_cons_of_mem _ hl', he⟩
    · by_cases h1 : (lookupA acc l.text).isSome
      · rw [parseAux_cons_seen h0 h1] at h
        rcases ih acc h with h' | ⟨l', hl', he⟩
        · exact Or.inl h'
        · exact Or.inr ⟨l', List.mem_cons_of_mem _ hl', he⟩
      · rw [parseAux_cons_add h0 h1] at h
        rcases ih _ h with h' | ⟨l', hl', he⟩
        · rcases List.mem_append.mp h' with h'' | h''
          · exact Or.inl h''
          · refine Or.inr ⟨l, List.mem_cons_self l rest, ?_⟩
            simpa using h''
        · exact Or.inr ⟨l', List.mem_cons_of_mem _ hl', he⟩

/-- C6: in every parsed snapshot the extracted ids are pairwise distinct,
a lookup of a non-empty id returns the record built from the FIRST listing
element carrying that id (later duplicates are discarded), and the empty
id is never a key (listings with an empty extracted id are skipped). -/
theorem parse_dedup_first_wins (ls : List Listing) :
    ((parse_apartments ls).map Prod.fst).Nodup ∧
    ∀ id : Str, lookupA (parse_apartments ls) id =
      if id = [] then none
      else (ls.find? (fun l => decide (l.text = id))).map buildInfo := by
  constructor
  · exact parseAux_nodup ls [] List.nodup_nil
  · intro id
    exact parseAux_lookup_none ls [] id rfl

theorem resolve_status_cases (classes : List Str) (data_text : Str) :
    resolve_status classes data_text = STATUS_FREE ∨
    resolve_status classes data_text = STATUS_RESERVED ∨
    resolve_status classes data_text = STATUS_OCCUPIED ∨
    resolve_status classes data_text = STATUS_UNKNOWN := by
  have hd : _detect_status_from_data_text data_text = STATUS_FREE ∨
      _detect_status_from_data_text data_text = STATUS_RESERVED ∨
      _detect_status_from_data_text data_text = STATUS_OCCUPIED ∨
      _detect_status_from_data_text data_text = STATUS_UNKNOWN := by
    simp only [_detect_status_from_data_text]
    split_ifs <;> tauto
  simp only [resolve_status, _detect_status]
  split_ifs <;> tauto

/-- C7: every record in a parsed snapshot carries a status key whose value
is one of the four strings free, reserved, occupied, unknown — never
missing and never anything else. -/
theorem status_always_resolved (ls : List Listing) (kv : Str × Info)
    (h : kv ∈ parse_apartments ls) :
    ∃ s, statusOf kv.2 = some s ∧
      (s = STATUS_FREE ∨ s = STATUS_RESERVED ∨ s = STATUS_OCCUPIED ∨ s = STATUS_UNKNOWN) := by
  rcases parseAux_mem ls [] kv h with h' | ⟨l, _, he⟩
  · cases h'
  · refine ⟨resolve_status l.classes l.data_text, ?_, resolve_status_cases _ _⟩
    rw [he]
    exact lookupA_buildInfo_status l

def L0 : Listing := ⟨"A".toList, ["apartment".toList, "free".toList], [], []⟩

/-- C7 witness: the single-listing page with a free class token. -/
theorem status_always_resolved_witness :
    ∃ s, statusOf ("A".toList, buildInfo L0).2 = some s ∧
      (s = STATUS_FREE ∨ s = STATUS_RESERVED ∨ s = STATUS_OCCUPIED ∨ s = STATUS_UNKNOWN) :=
  status_always_resolved [L0] ("A".toList, buildInfo L0) (by decide)

theorem bool_ext {a b : Bool} (h : a = true ↔ b = true) : a = b := by
  cases a <;> cases b <;> simp_all

theorem isPre_nil (s : Str) : isPre s [] = true ↔ s = [] := by
  cases s <;> simp [isPre]

theorem isSubstr_nil_left (h : Str) : isSubstr [] h = true := by
  induction h with
  | nil => rfl
  | cons c t ih => simp [isSubstr, isPre, ih]

theorem isPre_append {s : Str} (b : Str) :
    ∀ a : Str, isPre s a = true → isPre s (a ++ b) = true := by
  induction s with
  | nil => intro a _; rfl
  | cons x s' ih =>
    intro a h
    cases a with
    | nil => simp [isPre] at h
    | cons y a' =>
      simp only [isPre] at h
      simp only [List.cons_append, isPre]
      by_cases hxy : x = y
      · rw [if_pos hxy] at h ⊢
        exact ih a' h
      · rw [if_neg hxy] at h
        cases h

theorem isSubstr_append_left {s : Str} (b : Str) :
    ∀ a : Str, isSubstr s a = true → isSubstr s (a ++ b) = true := by
  intro a
  induction a with
  | nil =>
    intro h
    simp only [isSubstr] at h
    rw [(isPre_nil s).mp h]
    exact isSubstr_nil_left _
  | cons y a' ih =>
    intro h
    simp only [isSubstr] at h
    rw [Bool.or_eq_true] at h
    simp only [List.cons_append, isSubstr]
    rw [Bool.or_eq_true]
    rcases h with h | h
    · exact Or.inl (isPre_append b (y :: a') h)
    · exact Or.inr (ih h)

theorem isSubstr_append_right {s : Str} {b : Str} (a : Str)
    (h : isSubstr s b = true) : isSubstr s (a ++ b) = true := by
  induction a with
  | nil => exact h
  | cons y a' ih =>
    simp only [List.cons_append, isSubstr]
    rw [Bool.or_eq_true]
    exact Or.inr ih

theorem isPre_split (s : Str) (c : Char) (b : Str) :
    ∀ a : Str, c ∉ s → isPre s (a ++ c :: b) = true → isPre s a = true := by
  induction s with
  | nil => intro a _ _; rfl
  | cons x s' ih =>
    intro a hc h
    cases a with
    | nil =>
      simp only [List.nil_append, isPre] at h
      by_cases hxc : x = c
      · subst hxc
        exact absurd (List.mem_cons_self x s') hc
      · rw [if_neg hxc] at h
        cases h
    | cons y a' =>
      simp only [List.cons_append, isPre] at h
      simp only [isPre]
      by_cases hxy : x = y
      · rw [if_pos hxy] at h ⊢
        exact ih a' (fun hm => hc (List.mem_cons_of_mem _ hm)) h
      · rw [if_neg hxy] at h
        cases h

theorem isSubstr_split (s : Str) (c : Char) (b : Str) (hc : c ∉ s) :
    ∀ a : Str, isSubstr s (a ++ c :: b) = true →
      isSubstr s a = true ∨ isSubstr s b = true := by
  intro a
  induction a with
  | nil =>
    intro h
    simp only [List.nil_append, isSubstr] at h
    rw [Bool.or_eq_true] at h
    rcases h with h | h
    · cases s with
      | nil => exact Or.inl (isSubstr_nil_left [])
      | cons x s' =>
        simp only [isPre] at h
        by_cases hxc : x = c
        · subst hxc
          exact absurd (List.mem_cons_self x s') hc
        · rw [if_neg hxc] at h
          cases h
    · exact Or.inr h
  | cons y a' ih =>
    intro h
    simp only [List.cons_append, isSubstr] at h
    rw [Bool.or_eq_true] at h
    rcases h with h | h
    · have hp : isPre s (y :: a') = true := isPre_split s c b (y :: a') hc h
      refine Or.inl ?_
      simp only [isSubstr]
      rw [Bool.or_eq_true]
      exact Or.inl hp
    · rcases ih h with h' | h'
      · refine Or.inl ?_
        simp only [isSubstr]
        rw [Bool.or_eq_true]
        exact Or.inr h'
      · exact Or.inr h'

theorem isSubstr_joinSpace (s : Str) (h1 : s ≠ []) (hc : ' ' ∉ s) :
    ∀ ts : List Str, isSubstr s (joinSpace ts) = ts.any (fun t => isSubstr s t) := by
  intro ts
  induction ts with
  | nil =>
    apply bool_ext
    constructor
    · intro h
      simp only [joinSpace, isSubstr] at h
      exact absurd ((isPre_nil s).mp h) h1
    · intro h
      simp at h
  | cons t ts' ih =>
    cases ts' with
    | nil =>
      apply bool_ext
      simp [joinSpace, List.any_cons]
    | cons u ts'' =>
      simp only [joinSpace] at ih ⊢
      apply bool_ext
      constructor
      · intro h
        rcases isSubstr_split s ' ' (joinSpace (u :: ts'')) hc t h with h' | h'
        · rw [List.any_cons, Bool.or_eq_true]
          exact Or.inl h'
        · rw [List.any_cons, Bool.or_eq_true]
          rw [ih] at h'
          exact Or.inr h'
      · intro h
        rw [List.any_cons, Bool.or_eq_true] at h
        rcases h with h | h
        · exact isSubstr_append_left _ t h
        · rw [← ih] at h
          have := isSubstr_append_right (t ++ [' ']) h
          rw [List.append_assoc] at this
          exact this

theorem lowerStr_append (a b : Str) : lowerStr (a ++ b) = lowerStr a ++ lowerStr b := by
  simp [lowerStr]

theorem lowerStr_joinSpace :
    ∀ ts : List Str, lowerStr (joinSpace ts) = joinSpace (ts.map lowerStr) := by
  intro ts
  induction ts with
  | nil => rfl
  | cons t ts' ih =>
    cases ts' with
    | nil => rfl
    | cons u ts'' =>
      simp only [joinSpace, List.map_cons] at ih ⊢
      rw [lowerStr_append]
      rw [show lowerStr (' ' :: joinSpace (u :: ts''))
            = ' ' :: lowerStr (joinSpace (u :: ts'')) from rfl]
      rw [ih]

theorem class_token_key (needle : Str) (h1 : needle ≠ []) (hc : ' ' ∉ needle)
    (classes : List Str) :
    isSubstr needle (lowerStr (joinSpace classes))
      = classes.any (fun t => isSubstr needle (lowerStr t)) := by
  rw [lowerStr_joinSpace, isSubstr_joinSpace needle h1 hc (classes.map lowerStr),
    List.any_map]
  rfl

/-- Status resolution as the spec words it (for the refinement claim): an
ordered rule list, first match wins — a class TOKEN containing (after
lowercasing) "free", then "reserved", then "occupied"; only when no class
token matches is the decoded detail blob searched for the markers
unit_free, unit_reserved, unit_occupied, in that order; otherwise
Unknown. -/
def statusSpec (classes : List Str) (data_text : Str) : Str :=
  if classes.any (fun t => isSubstr "free".toList (lowerStr t)) then STATUS_FREE
  else if classes.any (fun t => isSubstr "reserved".toList (lowerStr t)) then STATUS_RESERVED
  else if classes.any (fun t => isSubstr "occupied".toList (lowerStr t)) then STATUS_OCCUPIED
  else
    let text := unescape (unescape data_text)
    if isSubstr "unit_free".toList text then STATUS_FREE
    else if isSubstr "unit_reserved".toList text then STATUS_RESERVED
    else if isSubstr "unit_occupied".toList text then STATUS_OCCUPIED
    else STATUS_UNKNOWN

theorem detect_data_eq (dt : Str) :
    _detect_status_from_data_text dt =
      (if isSubstr "unit_free".toList (unescape (unescape dt)) then STATUS_FREE
       else if isSubstr "unit_reserved".toList (unescape (unescape dt)) then STATUS_RESERVED
       else if isSubstr "unit_occupied".toList (unescape (unescape dt)) then STATUS_OCCUPIED
       else STATUS_UNKNOWN) := by
  by_cases h : dt = []
  · subst h
    decide
  · simp only [_detect_status_from_data_text, if_neg h]

theorem resolve_status_eq (classes : List Str) (dt : Str) :
    resolve_status classes dt =
      (if isSubstr "free".toList (lowerStr (joinSpace classes)) then STATUS_FREE
       else if isSubstr "reserved".toList (lowerStr (joinSpace classes)) then STATUS_RESERVED
       else if isSubstr "occupied".toList (lowerStr (joinSpace classes)) then STATUS_OCCUPIED
       else _detect_status_from_data_text dt) := by
  simp only [resolve_status, _detect_status]
  by_cases h1 : isSubstr "free".toList (lowerStr (joinSpace classes)) = true
  · have hchain :
        (if isSubstr "free".toList (lowerStr (joinSpace classes)) then STATUS_FREE
         else if isSubstr "reserved".toList (lowerStr (joinSpace classes)) then STATUS_RESERVED
         else if isSubstr "occupied".toList (lowerStr (joinSpace classes)) then STATUS_OCCUPIED
         else STATUS_UNKNOWN) = STATUS_FREE := if_pos h1
    rw [hchain, if_neg (by decide : ¬(STATUS_FREE = STATUS_UNKNOWN)), if_pos h1]
  · by_cases h2 : isSubstr "reserved".toList (lowerStr (joinSpace classes)) = true
    · have hchain :
          (if isSubstr "free".toList (lowerStr (joinSpace classes)) then STATUS_FREE
           else if isSubstr "reserved".toList (lowerStr (joinSpace classes)) then STATUS_RESERVED
           else if isSubstr "occupied".toList (lowerStr (joinSpace classes)) then STATUS_OCCUPIED
           else STATUS_UNKNOWN) = STATUS_RESERVED := by
        rw [if_neg h1, if_pos h2]
      rw [hchain, if_neg (by decide : ¬(STATUS_RESERVED = STATUS_UNKNOWN)), if_neg h1, if_pos h2]
    · by_cases h3 : isSubstr "occupied".toList (lowerStr (joinSpace classes)) = true
      · have hchain :
            (if isSubstr "free".toList (lowerStr (joinSpace classes)) then STATUS_FREE
             else if isSubstr "reserved".toList (lowerStr (joinSpace classes)) then STATUS_RESERVED
             else if isSubstr "occupied".toList (lowerStr (joinSpace classes)) then STATUS_OCCUPIED
             else STATUS_UNKNOWN) = STATUS_OCCUPIED := by
          rw [if_neg h1, if_neg h2, if_pos h3]
        rw [hchain, if_neg (by decide : ¬(STATUS_OCCUPIED = STATUS_UNKNOWN)),
          if_neg h1, if_neg h2, if_pos h3]
      · have hchain :
            (if isSubstr "free".toList (lowerStr (joinSpace classes)) then STATUS_FREE
             else if isSubstr "reserved".toList (lowerStr (joinSpace classes)) then STATUS_RESERVED
             else if isSubstr "occupied".toList (lowerStr (joinSpace classes)) then STATUS_OCCUPIED
             else STATUS_UNKNOWN) = STATUS_UNKNOWN := by
          rw [if_neg h1, if_neg h2, if_neg h3]
        rw [hchain, if_pos rfl, if_neg h1, if_neg h2, if_neg h3]

/-- C8: status resolution is ordered with first match winning — the code's
class-string search followed by the data-text fallback computes exactly
the spec's ordered rule list over class tokens and decoded markers. -/
theorem status_resolution_matches_spec (classes : List Str) (data_text : Str) :
    resolve_status classes data_text = statusSpec classes data_text := by
  rw [resolve_status_eq classes data_text,
    class_token_key "free".toList (by decide) (by decide) classes,
    class_token_key "reserved".toList (by decide) (by decide) classes,
    class_token_key "occupied".toList (by decide) (by decide) classes,
    detect_data_eq data_text]
  rfl
